import Mathlib

/-!
A shallow embedding of the `log` package: dispatcher, console sink, rotating-file sink.

The Go sources `log.go`, `console.go` and `file.go` are embedded as pure Lean functions.

* Go `int`/`int64` values are `Int`; where the source can overflow the 64-bit range the
  result is reduced with `wrapInt64`.
* A `time.Time` is a record of the instant (`unixNano`) together with what the accessors
  `Year/Month/Day/Hour/Minute/Second` return for it.
* Channels are bounded FIFO buffers; an operation of a goroutine that blocks or panics in a
  given state yields `none`.
* The sink installed in a `Log` is observed through the list of calls it receives.
* `fmt.Sprintf` is a parameter of the dispatcher functions.
-/

namespace GoLog

/-! ## Time -/

/-- A `time.Time` value: the instant in nanoseconds since the Unix epoch and the civil
fields reported by its accessors in its location. -/
structure Time where
  unixNano : Int
  year : Int
  month : Nat
  day : Nat
  hour : Nat
  minute : Nat
  second : Nat
deriving DecidableEq, Repr

/-- `appendInt` of package `time`: decimal text of `x`, zero padded to `width` digits,
with a leading minus sign for negative values. -/
def appendInt (x : Int) (width : Nat) : String :=
  let digits := toString x.natAbs
  let padded := String.mk (List.replicate (width - digits.length) '0') ++ digits
  if x < 0 then "-" ++ padded else padded

/-- `t.Format("2006-01-02")`. -/
def Time.formatDate (t : Time) : String :=
  appendInt t.year 4 ++ "-" ++ appendInt t.month 2 ++ "-" ++ appendInt t.day 2

/-- `t.Format("2006-01-02 15:04:05")`. -/
def Time.formatDateTime (t : Time) : String :=
  t.formatDate ++ " " ++ appendInt t.hour 2 ++ ":" ++ appendInt t.minute 2 ++ ":"
    ++ appendInt t.second 2

/-! ## log.go: levels, records, dispatcher state -/

def LevelEmergency : Int := 0
def LevelAlert : Int := 1
def LevelCritical : Int := 2
def LevelError : Int := 3
def LevelWarning : Int := 4
def LevelNotice : Int := 5
def LevelInfo : Int := 6
def LevelDebug : Int := 7

def defaultAsyncMsgLen : Int := 1000

/-- The array `levelPrefix` of `log.go`. -/
def levelPrefix : List String :=
  ["[Emergency] ", "[Alert] ", "[Critical] ", "[Error] ", "[Warning] ", "[Notice] ",
   "[Info] ", "[Debug] "]

/-- Indexing `levelPrefix[level]`; `none` is the index-out-of-range panic. -/
def levelPrefixAt (level : Int) : Option String :=
  if 0 ≤ level then levelPrefix.get? level.toNat else none

structure logMsg where
  level : Int
  msg : String
  when : Time
deriving DecidableEq, Repr

/-- A call received by the installed `Logger` (the sink). -/
inductive SinkCall where
  | WriteMsg (when : Time) (msg : String) (level : Int)
  | Flush
  | Destroy
deriving DecidableEq, Repr

/-- A buffered Go channel. -/
structure Chan (β : Type) where
  cap : Nat
  buf : List β
  closed : Bool
deriving DecidableEq, Repr

/-- `make(chan β, n)`; a negative size panics. -/
def Chan.make {β : Type} (n : Int) : Option (Chan β) :=
  if 0 ≤ n then some { cap := n.toNat, buf := [], closed := false } else none

/-- `c <- x` on a buffered channel: panics when closed, blocks when full. -/
def Chan.send {β : Type} (c : Chan β) (x : β) : Option (Chan β) :=
  if c.closed then none
  else if c.buf.length < c.cap then some { c with buf := c.buf ++ [x] }
  else none

/-- `close(c)`; closing a closed channel panics. -/
def Chan.close {β : Type} (c : Chan β) : Option (Chan β) :=
  if c.closed then none else some { c with closed := true }

/-- The struct `Log`. `msgChan = none` is the nil channel of a dispatcher on which `Async`
was never called; `running` tells whether the goroutine `startLogger` is alive; `calls`
are the calls received so far by `l.logger`; `stdout` collects what the dispatcher prints
on standard output. The field `synchronous` keeps the source's name: it is `true` exactly
in asynchronous mode. -/
structure Log where
  level : Int
  msgChanLen : Int
  msgChan : Option (Chan logMsg)
  signalChan : Chan String
  wg : Int
  synchronous : Bool
  running : Bool
  calls : List SinkCall
  stdout : List String
deriving DecidableEq, Repr

/-- `NewLogger()`, with a sink installed whose call history is empty. -/
def NewLogger : Log :=
  { level := LevelDebug
    msgChanLen := defaultAsyncMsgLen
    msgChan := none
    signalChan := { cap := 1, buf := [], closed := false }
    wg := 0
    synchronous := false
    running := false
    calls := []
    stdout := [] }

def Log.setLevel (l : Log) (level : Int) : Log := { l with level := level }

/-- `(*Log).Async`. -/
def Log.Async (l : Log) (chanLen : Int) : Option Log :=
  if l.synchronous then some l
  else
    let n := if chanLen > 0 then chanLen else l.msgChanLen
    match Chan.make n with
    | none => none
    | some c =>
      some { l with synchronous := true, msgChanLen := n, msgChan := some c,
                    wg := l.wg + 1, running := true }

section Dispatcher

variable {α : Type} (sprintf : String → List α → String)

/-- `(*Log).writeMsg`; `now` is the value of `time.Now()`. -/
def Log.writeMsg (l : Log) (now : Time) (level : Int) (msg : String) (v : List α) :
    Option Log :=
  let msg := if v.length > 0 then sprintf msg v else msg
  match levelPrefixAt level with
  | none => none
  | some pre =>
    let msg := pre ++ msg
    if l.synchronous then
      match l.msgChan with
      | none => none
      | some c =>
        match c.send { level := level, msg := msg, when := now } with
        | none => none
        | some c' => some { l with msgChan := some c' }
    else
      some { l with calls := l.calls ++ [SinkCall.WriteMsg now msg level] }

def Log.Emergency (l : Log) (now : Time) (format : String) (v : List α) : Option Log :=
  if LevelEmergency > l.level then some l
  else l.writeMsg sprintf now LevelEmergency format v

def Log.Alert (l : Log) (now : Time) (format : String) (v : List α) : Option Log :=
  if LevelAlert > l.level then some l
  else l.writeMsg sprintf now LevelAlert format v

def Log.Critical (l : Log) (now : Time) (format : String) (v : List α) : Option Log :=
  if LevelCritical > l.level then some l
  else l.writeMsg sprintf now LevelCritical format v

def Log.Error (l : Log) (now : Time) (format : String) (v : List α) : Option Log :=
  if LevelError > l.level then some l
  else l.writeMsg sprintf now LevelError format v

def Log.Warning (l : Log) (now : Time) (format : String) (v : List α) : Option Log :=
  if LevelWarning > l.level then some l
  else l.writeMsg sprintf now LevelWarning format v

def Log.Notice (l : Log) (now : Time) (format : String) (v : List α) : Option Log :=
  if LevelNotice > l.level then some l
  else l.writeMsg sprintf now LevelNotice format v

def Log.Informational (l : Log) (now : Time) (format : String) (v : List α) : Option Log :=
  if LevelInfo > l.level then some l
  else l.writeMsg sprintf now LevelInfo format v

/-- `(*Log).Debug`; a suppressed call prints a line on standard output. -/
def Log.Debug (l : Log) (now : Time) (format : String) (v : List α) : Option Log :=
  if LevelDebug > l.level then
    some { l with stdout := l.stdout ++
      ["LevelDebug:" ++ toString LevelDebug ++ ",l.level:" ++ toString l.level ++ "\n"] }
  else l.writeMsg sprintf now LevelDebug format v

/-- `(*Log).Warn`, documented in the source as the compatibility alias for `Warning()`. -/
def Log.Warn (l : Log) (now : Time) (format : String) (v : List α) : Option Log :=
  if LevelInfo > l.level then some l
  else l.writeMsg sprintf now LevelInfo format v

def Log.Info (l : Log) (now : Time) (format : String) (v : List α) : Option Log :=
  if LevelInfo > l.level then some l
  else l.writeMsg sprintf now LevelInfo format v

/-- The level-named submit methods of `Log`. -/
inductive LevelOp where
  | Emergency | Alert | Critical | Error | Warning | Notice | Informational | Debug
  | Warn | Info
deriving DecidableEq, Repr

/-- The severity each method is named after (`Warn` being the alias of `Warning`). -/
def LevelOp.namedLevel : LevelOp → Int
  | .Emergency => LevelEmergency
  | .Alert => LevelAlert
  | .Critical => LevelCritical
  | .Error => LevelError
  | .Warning => LevelWarning
  | .Notice => LevelNotice
  | .Informational => LevelInfo
  | .Debug => LevelDebug
  | .Warn => LevelWarning
  | .Info => LevelInfo

/-- Calling the method `op` on `l`. -/
def Log.call (l : Log) (op : LevelOp) (now : Time) (format : String) (v : List α) :
    Option Log :=
  match op with
  | .Emergency => l.Emergency sprintf now format v
  | .Alert => l.Alert sprintf now format v
  | .Critical => l.Critical sprintf now format v
  | .Error => l.Error sprintf now format v
  | .Warning => l.Warning sprintf now format v
  | .Notice => l.Notice sprintf now format v
  | .Informational => l.Informational sprintf now format v
  | .Debug => l.Debug sprintf now format v
  | .Warn => l.Warn sprintf now format v
  | .Info => l.Info sprintf now format v

end Dispatcher

/-- The message text `writeMsg` builds before the prefix is added. -/
def rendered {α : Type} (sprintf : String → List α → String) (format : String)
    (v : List α) : String :=
  if v.length > 0 then sprintf format v else format

/-! ## log.go: the consumer goroutine, `Flush` and `Close` -/

/-- The loop of `(*Log).flush`: while `len(l.msgChan) > 0`, take the head record and hand
it to the sink. -/
def drain : List logMsg → List SinkCall → List SinkCall
  | [], calls => calls
  | lm :: rest, calls => drain rest (calls ++ [SinkCall.WriteMsg lm.when lm.msg lm.level])

/-- `(*Log).flush`. -/
def Log.flush (l : Log) : Log :=
  let l1 :=
    if l.synchronous then
      match l.msgChan with
      | none => l
      | some c => { l with msgChan := some { c with buf := [] }, calls := drain c.buf l.calls }
    else l
  { l1 with calls := l1.calls ++ [SinkCall.Flush] }

/-- One iteration of the loop of `(*Log).startLogger` taking the case
`lm := <-l.msgChan`. It is enabled when the goroutine is alive and a record is queued. -/
def Log.startLogger_msg (l : Log) : Option Log :=
  if l.running then
    match l.msgChan with
    | none => none
    | some c =>
      match c.buf with
      | [] => none
      | lm :: rest =>
        some { l with msgChan := some { c with buf := rest },
                      calls := l.calls ++ [SinkCall.WriteMsg lm.when lm.msg lm.level] }
  else none

/-- One iteration of the loop of `(*Log).startLogger` taking the case
`sg := <-l.signalChan`: flush, destroy the sink on "close", `wg.Done()`, and return from
the goroutine. -/
def Log.startLogger_signal (l : Log) : Option Log :=
  if l.running then
    match l.signalChan.buf with
    | [] => none
    | sg :: rest =>
      let l1 : Log := { l with signalChan := { l.signalChan with buf := rest } }
      let l2 : Log := l1.flush
      let l3 : Log := if sg = "close" then { l2 with calls := l2.calls ++ [SinkCall.Destroy] } else l2
      if l3.wg < 1 then none
      else some { l3 with wg := l3.wg - 1, running := false }
  else none

/-- The first part of `(*Log).Close`: in asynchronous mode up to and including
`l.signalChan <- "close"`; in direct mode the whole call. -/
def Log.Close_send (l : Log) : Option Log :=
  if l.synchronous then
    match l.signalChan.send "close" with
    | none => none
    | some sc => some { l with signalChan := sc }
  else
    match l.signalChan.close with
    | none => none
    | some sc =>
      some { l with calls := l.calls ++ [SinkCall.Flush, SinkCall.Destroy], signalChan := sc }

/-- The rest of `(*Log).Close` in asynchronous mode: `l.wg.Wait()` returns once the
counter is zero, then `close(l.msgChan)` and `close(l.signalChan)`. -/
def Log.Close_wait (l : Log) : Option Log :=
  if l.synchronous ∧ l.wg = 0 then
    match l.msgChan with
    | none => none
    | some c =>
      match c.close, l.signalChan.close with
      | some c', some sc => some { l with msgChan := some c', signalChan := sc }
      | _, _ => none
  else none

/-- The first part of `(*Log).Flush`: in asynchronous mode up to and including
`l.signalChan <- "flush"`; in direct mode the whole call. -/
def Log.Flush_send (l : Log) : Option Log :=
  if l.synchronous then
    match l.signalChan.send "flush" with
    | none => none
    | some sc => some { l with signalChan := sc }
  else some l.flush

/-- The rest of `(*Log).Flush` in asynchronous mode: `l.wg.Wait()` then `l.wg.Add(1)`. -/
def Log.Flush_wait (l : Log) : Option Log :=
  if l.synchronous ∧ l.wg = 0 then some { l with wg := l.wg + 1 } else none

/-- What the goroutines sharing a dispatcher can do next. -/
inductive Event (α : Type) where
  | submit (op : LevelOp) (now : Time) (format : String) (v : List α)
  | consumerMsg
  | consumerSignal
  | closeSend
  | closeWait
  | flushSend
  | flushWait
  | async (chanLen : Int)

section Run

variable {α : Type} (sprintf : String → List α → String)

def Log.step (l : Log) : Event α → Option Log
  | .submit op now format v => l.call sprintf op now format v
  | .consumerMsg => l.startLogger_msg
  | .consumerSignal => l.startLogger_signal
  | .closeSend => l.Close_send
  | .closeWait => l.Close_wait
  | .flushSend => l.Flush_send
  | .flushWait => l.Flush_wait
  | .async chanLen => l.Async chanLen

/-- An interleaving of the goroutines, `none` when some step is not possible. -/
def Log.run (l : Log) : List (Event α) → Option Log
  | [] => some l
  | e :: es =>
    match l.step sprintf e with
    | none => none
    | some l' => l'.run es

end Run

/-- The records waiting in the queue. -/
def Log.queue (l : Log) : List logMsg :=
  match l.msgChan with
  | none => []
  | some c => c.buf

/-- The sink call the consumer makes for a queued record. -/
def toCall (lm : logMsg) : SinkCall := SinkCall.WriteMsg lm.when lm.msg lm.level

/-- The severity constant the body of each method compares with the threshold and passes
to `writeMsg`. -/
def LevelOp.usedLevel : LevelOp → Int
  | .Emergency => LevelEmergency
  | .Alert => LevelAlert
  | .Critical => LevelCritical
  | .Error => LevelError
  | .Warning => LevelWarning
  | .Notice => LevelNotice
  | .Informational => LevelInfo
  | .Debug => LevelDebug
  | .Warn => LevelInfo
  | .Info => LevelInfo

/-- The record a submit event puts on the queue of a dispatcher with the given threshold
(nothing for a suppressed call and for the other events). -/
def Event.enqueued {α : Type} (sprintf : String → List α → String) (threshold : Int) :
    Event α → List logMsg
  | .submit op now format v =>
    if op.usedLevel ≤ threshold then
      [{ level := op.usedLevel,
         msg := levelPrefix.getD op.usedLevel.toNat "" ++ rendered sprintf format v,
         when := now }]
    else []
  | _ => []

/-- The records a list of events puts on the queue, in order. -/
def enqueuedBy {α : Type} (sprintf : String → List α → String) (threshold : Int) :
    List (Event α) → List logMsg
  | [] => []
  | e :: es => e.enqueued sprintf threshold ++ enqueuedBy sprintf threshold es

/-- Producer submits and the consumer taking single records. -/
def Event.isTraffic {α : Type} : Event α → Bool
  | .submit _ _ _ _ => true
  | .consumerMsg => true
  | _ => false

/-- The two halves of `Flush`. -/
def Event.isFlush {α : Type} : Event α → Bool
  | .flushSend => true
  | .flushWait => true
  | _ => false

/-- Invariant of a dispatcher in asynchronous mode once `Close` has sent its signal:
either the consumer is still alive and everything in `P` is written or queued, or the
consumer has returned after writing all of `P`, flushing and destroying the sink. -/
def Closing (P : List SinkCall) (l : Log) : Prop :=
  l.synchronous = true ∧ (∀ s ∈ l.signalChan.buf, s = "close") ∧
  ((l.running = true ∧ 1 ≤ l.wg ∧
      ∃ t : List logMsg, l.calls ++ l.queue.map toCall = P ++ t.map toCall) ∨
   (l.running = false ∧
      ∃ t : List logMsg, l.calls = P ++ t.map toCall ++ [SinkCall.Flush, SinkCall.Destroy]))

/-! ## Machine integers, strings and paths -/

/-- Reduction of an integer to the range of Go's `int64` (and of `int` on 64-bit
platforms), as done by the wrapping arithmetic of the language. -/
def wrapInt64 (x : Int) : Int :=
  (x + 9223372036854775808) % 18446744073709551616 - 9223372036854775808

/-- `len(s)`: the number of bytes of a string. -/
def len (s : String) : Int := s.utf8ByteSize

/-- `strings.HasPrefix(s, p)`. -/
def HasPrefix (s p : String) : Bool := p.toList.isPrefixOf s.toList

/-- `strings.HasSuffix(s, p)`. -/
def HasSuffix (s p : String) : Bool := p.toList.isSuffixOf s.toList

/-- `strings.TrimSuffix(s, suffix)`. -/
def TrimSuffix (s suffix : String) : String :=
  if HasSuffix s suffix then String.mk (s.toList.take (s.toList.length - suffix.toList.length))
  else s

/-- The first loop of `filepath.Base`: strip trailing separators. -/
def stripTrailingSlashes (rev : List Char) : List Char := rev.dropWhile (fun ch => ch = '/')

/-- `filepath.Base(path)` on a system whose separator is `/` and that has no volume
names. -/
def Base (path : String) : String :=
  if path = "" then "."
  else
    let stripped := stripTrailingSlashes path.toList.reverse
    let last := (stripped.takeWhile (fun ch => ch ≠ '/')).reverse
    if last = [] then "/" else String.mk last

/-- The loop of `filepath.Ext` over the reversed path: `acc` holds the characters already
passed. -/
def extLoop : List Char → List Char → List Char
  | [], _ => []
  | ch :: rest, acc =>
    if ch = '/' then []
    else if ch = '.' then ch :: acc
    else extLoop rest (ch :: acc)

/-- `filepath.Ext(path)`. -/
def Ext (path : String) : String := String.mk (extLoop path.toList.reverse [])

/-- The digit loop of `strconv.ParseUint(s, 8, 64)`: `none` for a character that is not
an octal digit. -/
def parseOctalDigits : List Char → Nat → Option Nat
  | [], acc => some acc
  | ch :: rest, acc =>
    if '0' ≤ ch ∧ ch ≤ '7' then parseOctalDigits rest (acc * 8 + (ch.toNat - '0'.toNat))
    else none

/-- `strconv.ParseInt(s, 8, 64)`; `none` stands for a returned error (syntax or range). -/
def ParseInt8 (s : String) : Option Int :=
  let body (neg : Bool) (ds : List Char) : Option Int :=
    if ds = [] then none
    else
      match parseOctalDigits ds 0 with
      | none => none
      | some un =>
        if neg then (if un > 9223372036854775808 then none else some (-(un : Int)))
        else (if un ≥ 9223372036854775808 then none else some (un : Int))
  match s.toList with
  | [] => none
  | '+' :: ds => body false ds
  | '-' :: ds => body true ds
  | ds => body false ds

/-- `fmt` verb `%d` for an `int`. -/
def fmtD (n : Nat) : String := toString n

/-- `fmt` verb `%02d` for a non-negative `int`. -/
def fmt02d (n : Nat) : String :=
  String.mk (List.replicate (2 - (toString n).length) '0') ++ toString n

/-! ## Package `os` as seen by the sinks -/

inductive FileKind where
  | regular | directory | symlink | other
deriving DecidableEq, Repr

/-- What `os.Lstat` reports for a path; `modTime` is in nanoseconds since the epoch. -/
structure FileInfo where
  kind : FileKind
  size : Int
  modTime : Int
  mode : Nat
deriving DecidableEq, Repr

def FileInfo.IsDir (i : FileInfo) : Bool := decide (i.kind = FileKind.directory)

/-- A call made to package `os`, to a file handle, or a goroutine started. -/
inductive Effect where
  | write (fd : Option Nat) (data : String)
  | close (fd : Option Nat)
  | sync (fd : Option Nat)
  | rename (oldpath newpath : String)
  | chmod (name : String) (mode : Nat)
  | mkdirAllDirOf (filename : String) (perm : Nat)
  | openFile (name : String) (perm : Nat)
  | goRemoveOldFile
  | goMonitorFile
deriving DecidableEq, Repr

/-- The operating system around a sink: the clock, the existing paths, the open
descriptors with the path each one refers to, the history of calls, and what was printed
on standard output. -/
structure OS where
  now : Time
  files : List (String × FileInfo)
  fds : List (Nat × String)
  nextFd : Nat
  calls : List Effect
  stdout : List String
deriving DecidableEq, Repr

/-- `os.Lstat(name)`; `none` is the error for a missing path. -/
def OS.Lstat (os : OS) (name : String) : Option FileInfo := os.files.lookup name

def OS.log (os : OS) (e : Effect) : OS := { os with calls := os.calls ++ [e] }

/-- Replace the information stored for `name`. -/
def setInfo (name : String) (i : FileInfo) : List (String × FileInfo) → List (String × FileInfo)
  | [] => []
  | (p, j) :: rest => if p = name then (p, i) :: rest else (p, j) :: setInfo name i rest

/-- The method `Close` of `*os.File` (an error, not a panic, on a nil or closed handle). -/
def OS.Close (os : OS) (fd : Option Nat) : OS :=
  let os := os.log (Effect.close fd)
  match fd with
  | none => os
  | some n => { os with fds := os.fds.filter (fun e => e.1 ≠ n) }

/-- `os.Rename(oldpath, newpath)`; the Boolean tells whether it succeeded. It fails when
`oldpath` does not exist, and replaces an existing `newpath`. -/
def OS.Rename (os : OS) (oldpath newpath : String) : OS × Bool :=
  let os := os.log (Effect.rename oldpath newpath)
  match os.Lstat oldpath with
  | none => (os, false)
  | some i =>
    ({ os with
        files := (os.files.filter (fun e => e.1 ≠ oldpath ∧ e.1 ≠ newpath)) ++ [(newpath, i)]
        fds := os.fds.map (fun e => if e.2 = oldpath then (e.1, newpath) else e) }, true)

/-- `os.Chmod(name, mode)`; the Boolean tells whether it succeeded (it fails on a missing
path). -/
def OS.Chmod (os : OS) (name : String) (mode : Nat) : OS × Bool :=
  let os := os.log (Effect.chmod name mode)
  match os.Lstat name with
  | none => (os, false)
  | some i => ({ os with files := setInfo name { i with mode := mode } os.files }, true)

/-- `os.OpenFile(name, O_CREATE|O_APPEND|O_WRONLY, perm)`: opening a directory fails, a
missing file is created empty. -/
def OS.OpenFile (os : OS) (name : String) (perm : Nat) : OS × Option Nat :=
  let os := os.log (Effect.openFile name perm)
  match os.Lstat name with
  | some i =>
    if i.IsDir then (os, none)
    else ({ os with fds := os.fds ++ [(os.nextFd, name)], nextFd := os.nextFd + 1 },
          some os.nextFd)
  | none =>
    ({ os with
        files := os.files ++ [(name, { kind := FileKind.regular, size := 0,
                                       modTime := os.now.unixNano, mode := perm })]
        fds := os.fds ++ [(os.nextFd, name)], nextFd := os.nextFd + 1 }, some os.nextFd)

/-- The result of a `Write` on a file handle as decided by the system: success, or an
error after `n` bytes. -/
inductive WriteResult where
  | ok
  | err (n : Nat)
deriving DecidableEq, Repr

/-- The method `Write` of `*os.File`; the Boolean tells whether the returned error is nil.
A nil or closed handle always gives an error. -/
def OS.Write (os : OS) (fd : Option Nat) (data : String) (r : WriteResult) : OS × Bool :=
  let os := os.log (Effect.write fd data)
  match fd with
  | none => (os, false)
  | some n =>
    match os.fds.lookup n with
    | none => (os, false)
    | some name =>
      match os.Lstat name with
      | none => (os, decide (r = WriteResult.ok))
      | some i =>
        let grown : Int := match r with
          | WriteResult.ok => len data
          | WriteResult.err k => min (k : Int) (len data)
        ({ os with files := setInfo name { i with size := i.size + grown,
                                                  modTime := os.now.unixNano } os.files },
         decide (r = WriteResult.ok))

/-! ## file.go: the rotating-file sink -/

/-- The struct `file`; `writer = none` is the nil `*os.File`. -/
structure file where
  Filename : String
  fileNameOnly : String
  suffix : String
  writer : Option Nat
  MaxSize : Int
  sizeNow : Int
  Daily : Bool
  MaxDays : Int
  dailyOpenTime : Time
  Rotate : Bool
  Level : Int
  Perm : String
deriving DecidableEq, Repr

/-- `newFile()`; the zero `time.Time` is January 1, year 1, 00:00:00 UTC. -/
def newFile : file :=
  { Filename := "", fileNameOnly := "", suffix := "", writer := none,
    MaxSize := 268435456, sizeNow := 0, Daily := true, MaxDays := 7,
    dailyOpenTime := { unixNano := -62135596800000000000, year := 1, month := 1, day := 1,
                       hour := 0, minute := 0, second := 0 },
    Rotate := true, Level := LevelDebug, Perm := "0660" }

/-- `(*file).createFile`: the new descriptor, or `none` for a returned error. -/
def file.createFile (f : file) (os : OS) : OS × Option Nat :=
  match ParseInt8 f.Perm with
  | none => (os, none)
  | some perm =>
    let filePerm := (perm % 4294967296).toNat
    let os := os.log (Effect.mkdirAllDirOf f.Filename filePerm)
    os.OpenFile f.Filename filePerm

/-- `(*file).initFd`; the Boolean tells whether the returned error is nil. `Stat` on the
handle reports the file just opened at `f.Filename`. -/
def file.initFd (f : file) (os : OS) : file × OS × Bool :=
  let f := { f with dailyOpenTime := os.now }
  match os.Lstat f.Filename with
  | none => (f, os, false)
  | some fileInfo => ({ f with sizeNow := wrapInt64 fileInfo.size }, os, true)

/-- `(*file).startLogger`; the Boolean tells whether the returned error is nil. -/
def file.startLogger (f : file) (os : OS) : file × OS × Bool :=
  match f.createFile os with
  | (os, none) => (f, os, false)
  | (os, some fd) =>
    let os := if f.writer.isSome then os.Close f.writer else os
    let f := { f with writer := some fd }
    f.initFd os

/-- `(*file).restartLogger`: the error of `startLogger` is dropped and the retention sweep
is started as a goroutine. -/
def file.restartLogger (f : file) (os : OS) : file × OS :=
  let (f, os, _) := f.startLogger os
  (f, os.log Effect.goRemoveOldFile)

/-- The errors `doRotate` returns: the rotated name is taken, or `os.Chmod` failed. -/
inductive RotateError where
  | collision (newFileName : String)
  | chmod
deriving DecidableEq, Repr

/-- The name `doRotate` gives to the retired file. -/
def file.newFileName (f : file) (t : Time) : String :=
  f.fileNameOnly ++ t.formatDate ++ "_" ++ fmtD t.hour ++ fmt02d t.minute ++ fmt02d t.second
    ++ f.suffix

/-- `(*file).doRotate`; the third component is the returned error (`none` for nil). -/
def file.doRotate (f : file) (os : OS) (t : Time) : file × OS × Option RotateError :=
  if !f.Rotate then (f, os, none)
  else if (f.MaxSize > 0 ∧ f.sizeNow > f.MaxSize) ∨ f.dailyOpenTime.day ≠ t.day then
    let (f, os) :=
      match os.Lstat f.Filename with
      | none => f.restartLogger os
      | some _ => (f, os)
    let newFileName := f.newFileName t
    match os.Lstat newFileName with
    | some _ => (f, os, some (RotateError.collision newFileName))
    | none =>
      let os := os.Close f.writer
      let (f, os) :=
        match os.Rename f.Filename newFileName with
        | (os, false) => f.restartLogger os
        | (os, true) => (f, os)
      match os.Chmod newFileName 288 with
      | (os, false) => (f, os, some RotateError.chmod)
      | (os, true) =>
        let (f, os) := f.restartLogger os
        (f, os, none)
  else (f, os, none)

/-- `(*file).WriteMsg`; `r` is what the system makes of the `Write` on the handle. The
returned error is always nil. -/
def file.WriteMsg (f : file) (os : OS) (when : Time) (msg : String) (level : Int)
    (r : WriteResult) : file × OS :=
  if f.Level < level then
    (f, { os with stdout := os.stdout ++ [toString f.Level ++ " " ++ toString level ++ "\n"] })
  else
    let t := when.formatDateTime
    let msg := t ++ " " ++ msg ++ "\n"
    match os.Write f.writer msg r with
    | (os, true) => ({ f with sizeNow := wrapInt64 (f.sizeNow + len msg) }, os)
    | (os, false) => (f, os)

/-- `(*file).Init` after `json.Unmarshal` has filled `f` from the configuration; the
Boolean tells whether the returned error is nil. -/
def file.Init (f : file) (os : OS) : file × OS × Bool :=
  if len f.Filename = 0 then (f, os, false)
  else
    let suffix := Ext f.Filename
    let f := { f with suffix := suffix, fileNameOnly := TrimSuffix f.Filename suffix }
    let f := if f.suffix = "" then { f with suffix := ".log" } else f
    f.startLogger (os.log Effect.goMonitorFile)

/-- An entry `filepath.Walk` passes to the walk function: the path, and the file
information (`none` when the walk reports an error for the path). -/
structure WalkEntry where
  path : String
  info : Option FileInfo
deriving DecidableEq, Repr

/-- The walk function of `(*file).removeOldFile` on one entry: whether it calls
`os.Remove(path)`. A nil `info` makes `info.IsDir()` panic, which the deferred `recover`
turns into a message on standard error; `now` is the reading of `time.Now()` in
nanoseconds. -/
def file.removeOldFileVisit (f : file) (now : Int) (e : WalkEntry) : Bool :=
  if f.Daily then
    match e.info with
    | none => false
    | some info =>
      if !info.IsDir ∧ info.modTime + wrapInt64 (86400000000000 * f.MaxDays) < now then
        HasPrefix (Base e.path) (Base f.fileNameOnly) && HasSuffix (Base e.path) f.suffix
      else false
  else false

/-- `(*file).removeOldFile`: the paths handed to `os.Remove`, given the entries that
`filepath.Walk(filepath.Dir(f.Filename), ...)` visits. -/
def file.removeOldFile (f : file) (now : Int) (visited : List WalkEntry) : List String :=
  (visited.filter (fun e => f.removeOldFileVisit now e)).map (fun e => e.path)

/-! ## console.go: the console sink -/

/-- The brushes of `colors`, by their colour code. -/
def colors : List String := ["1;37", "1;36", "1;35", "1;31", "1;33", "1;32", "1;34", "1;44"]

/-- The function returned by `newBrush(color)`. -/
def newBrush (color : String) (text : String) : String :=
  "\x1b[" ++ color ++ "m" ++ text ++ "\x1b[0m"

/-- The struct `consoleWriter`; `out` collects the byte strings handed to the writer of
`lg` (standard output). -/
structure consoleWriter where
  Level : Int
  Colorful : Bool
  out : List String
deriving DecidableEq, Repr

/-- `(*logWriter).println`: the bytes handed to `lg.writer.Write`. -/
def println (when : Time) (msg : String) : String :=
  let h := when.formatDateTime
  h ++ msg ++ "\n"

/-- `(*consoleWriter).WriteMsg`; `none` is the index-out-of-range panic of
`colors[level]`. -/
def consoleWriter.WriteMsg (c : consoleWriter) (when : Time) (msg : String) (level : Int) :
    Option consoleWriter :=
  if level > c.Level then some c
  else if c.Colorful then
    if 0 ≤ level then
      match colors.get? level.toNat with
      | none => none
      | some color => some { c with out := c.out ++ [println when (newBrush color msg)] }
    else none
  else some { c with out := c.out ++ [println when msg] }

/-! ## Concrete states and inputs used in the examples -/

/-- A wall-clock reading: 2024-03-05 09:07:05 UTC. -/
def sampleTime : Time :=
  { unixNano := 1709629625000000000, year := 2024, month := 3, day := 5,
    hour := 9, minute := 7, second := 5 }

/-- A `Sprintf` stand-in that ignores its arguments. -/
def sampleSprintf : String → List String → String := fun format _ => format

/-- The dispatcher right after `NewLogger().Async(2)`. -/
def asyncLogger : Log :=
  { NewLogger with synchronous := true, msgChanLen := 2,
                   msgChan := some { cap := 2, buf := [], closed := false },
                   wg := 1, running := true }

/-- An asynchronous dispatcher whose consumer is about to receive "close" with two records
still queued. -/
def closingLogger : Log :=
  { asyncLogger with
      msgChan := some { cap := 2, closed := false,
                        buf := [{ level := 6, msg := "[Info] a", when := sampleTime },
                                { level := 3, msg := "[Error] b", when := sampleTime }] },
      signalChan := { cap := 1, buf := ["close"], closed := false } }

/-- The dispatcher `asyncLogger` after `Flush()` has returned and `Info("after flush")` was
submitted: the consumer goroutine has returned and the record sits in the queue. -/
def flushedLogger : Log :=
  { asyncLogger with
      running := false
      calls := [SinkCall.Flush]
      msgChan := some { cap := 2, closed := false,
                        buf := [{ level := 6, msg := "[Info] after flush", when := sampleTime }] } }

/-- The dispatcher `asyncLogger` after one goroutine has sent "flush" and the consumer has
served it, and another goroutine has then submitted `Info("x")` and run `Close()` to its
end: both channels are closed, the record sits in the queue, and the sink has received a
single `Flush`. -/
def closedEarlyLogger : Log :=
  { asyncLogger with
      running := false
      wg := 0
      calls := [SinkCall.Flush]
      msgChan := some { cap := 2, closed := true,
                        buf := [{ level := 6, msg := "[Info] x", when := sampleTime }] }
      signalChan := { cap := 1, buf := ["close"], closed := true } }

/-! ## Concrete systems and sinks used in the examples -/

/-- Midnight after `sampleTime`: 2024-03-06 00:00:00 UTC. -/
def midnight : Time :=
  { unixNano := 1709683200000000000, year := 2024, month := 3, day := 6,
    hour := 0, minute := 0, second := 0 }

/-- A system at `sampleTime` holding the empty directory `/var/log`. -/
def bootOS : OS :=
  { now := sampleTime
    files := [("/var/log", { kind := FileKind.directory, size := 4096,
                             modTime := 1709596800000000000, mode := 493 })]
    fds := [], nextFd := 3, calls := [], stdout := [] }

/-- The sink decoded from `{"filename":"/var/log/app.log","daily":false,"maxsize":0}`. -/
def configNoDaily : file :=
  { newFile with Filename := "/var/log/app.log", Daily := false, MaxSize := 0 }

/-- The sink `configNoDaily` after `Init` on `bootOS`. -/
def noDailySink : file := (configNoDaily.Init bootOS).1

/-- The system after that `Init`, with the clock advanced to `midnight`. -/
def noDailyOS : OS := { (configNoDaily.Init bootOS).2.1 with now := midnight }

/-- The sink decoded from `{"filename":"/var/log/app.log","maxsize":10}`. -/
def configSmall : file := { newFile with Filename := "/var/log/app.log", MaxSize := 10 }

/-- The sink `configSmall` after `Init` on `bootOS` and one successful write of the record
text "[Info] x". -/
def smallSink : file :=
  ((configSmall.Init bootOS).1.WriteMsg (configSmall.Init bootOS).2.1 sampleTime "[Info] x" 6
    WriteResult.ok).1

/-- The system after that `Init` and write. -/
def smallOS : OS :=
  ((configSmall.Init bootOS).1.WriteMsg (configSmall.Init bootOS).2.1 sampleTime "[Info] x" 6
    WriteResult.ok).2

/-- The sink decoded from `{"filename":"/var/log/app.log"}`. -/
def configDefault : file := { newFile with Filename := "/var/log/app.log" }

/-- The sink `configDefault` after `Init` on `bootOS`. -/
def defaultSink : file := (configDefault.Init bootOS).1

/-- The system after that `Init`, at `midnight`, where somebody has already created a file
with the name the rotation at `midnight` would use. -/
def collisionOS : OS :=
  { (configDefault.Init bootOS).2.1 with
      now := midnight
      files := (configDefault.Init bootOS).2.1.files ++
        [("/var/log/app2024-03-06_00000.log",
          { kind := FileKind.regular, size := 12, modTime := 1709629625000000000,
            mode := 288 })] }

/-- The sink decoded from `{"filename":"/var/log/app.log","maxdays":0}`, after `Init`. -/
def zeroDaysSink : file :=
  ({ newFile with Filename := "/var/log/app.log", MaxDays := 0 }.Init bootOS).1

/-- What `filepath.Walk("/var/log", ...)` visits one second after the rotation at
`midnight`: the directory, a symbolic link, the fresh active file and the rotated file. -/
def sweepVisits : List WalkEntry :=
  [{ path := "/var/log",
     info := some { kind := FileKind.directory, size := 4096,
                    modTime := 1709683200000000000, mode := 493 } },
   { path := "/var/log/app-current.log",
     info := some { kind := FileKind.symlink, size := 7,
                    modTime := 1709596800000000000, mode := 511 } },
   { path := "/var/log/app.log",
     info := some { kind := FileKind.regular, size := 0,
                    modTime := 1709683200000000000, mode := 432 } },
   { path := "/var/log/app2024-03-06_00000.log",
     info := some { kind := FileKind.regular, size := 29,
                    modTime := 1709629625000000000, mode := 288 } }]

/-- The clock one second after `midnight`, in nanoseconds. -/
def sweepNow : Int := 1709683201000000000

/-! # Theorems -/

/-- C1: in direct (Sync) mode, for every threshold `l.level`, each of the level-named
methods `Emergency` (0), `Alert` (1), `Critical` (2), `Error` (3), `Warning` (4), `Notice`
(5), `Informational`/`Info` (6) and `Debug` (7) makes exactly one `WriteMsg` call to the
sink, with its severity and the text `levelPrefix[severity]` followed by the rendered
message, when the severity is at most the threshold, and makes no call to the sink when
the severity is greater than the threshold. -/
theorem level_methods_sync {α : Type} (sprintf : String → List α → String) (l : Log)
    (op : LevelOp) (now : Time) (format : String) (v : List α)
    (hop : op ≠ LevelOp.Warn) (hsync : l.synchronous = false) :
    (op.namedLevel ≤ l.level →
      ∃ l', l.call sprintf op now format v = some l' ∧
        l'.calls = l.calls ++ [SinkCall.WriteMsg now
          (levelPrefix.getD op.namedLevel.toNat "" ++ rendered sprintf format v)
          op.namedLevel]) ∧
    (l.level < op.namedLevel →
      ∃ l', l.call sprintf op now format v = some l' ∧ l'.calls = l.calls) := by
  cases op <;>
    simp [Log.call, Log.Emergency, Log.Alert, Log.Critical, Log.Error, Log.Warning,
      Log.Notice, Log.Informational, Log.Debug, Log.Info, Log.writeMsg, LevelOp.namedLevel,
      LevelEmergency, LevelAlert, LevelCritical, LevelError, LevelWarning, LevelNotice,
      LevelInfo, LevelDebug, levelPrefixAt, levelPrefix, rendered, hsync] at hop ⊢
  all_goals
    refine ⟨fun h => ?_, fun h => ?_⟩
    · rw [if_neg (not_lt.mpr h)]
      exact ⟨_, rfl, rfl⟩
    · rw [if_pos h]
      exact ⟨_, rfl, rfl⟩

/-- Witness for C1: `Error` on a fresh dispatcher in direct mode. -/
theorem level_methods_sync_witness :
    LevelOp.Error ≠ LevelOp.Warn ∧ NewLogger.synchronous = false ∧
    ((LevelOp.Error).namedLevel ≤ NewLogger.level →
      ∃ l', NewLogger.call sampleSprintf LevelOp.Error
          sampleTime "disk full" [] = some l' ∧
        l'.calls = NewLogger.calls ++ [SinkCall.WriteMsg sampleTime
          (levelPrefix.getD (LevelOp.Error).namedLevel.toNat "" ++
            rendered sampleSprintf "disk full" [])
          (LevelOp.Error).namedLevel]) ∧
    (NewLogger.level < (LevelOp.Error).namedLevel →
      ∃ l', NewLogger.call sampleSprintf LevelOp.Error
          sampleTime "disk full" [] = some l' ∧ l'.calls = NewLogger.calls) :=
  ⟨by decide, rfl, level_methods_sync sampleSprintf NewLogger LevelOp.Error
    sampleTime "disk full" [] (by decide) rfl⟩

/-- C10 at a failing input: with the threshold at `LevelDebug`, `Warn("low disk")` reaches
the sink with severity 6 and the prefix "[Info] ", while `Warning("low disk")` reaches it
with severity 4 and the prefix "[Warning] "; with the threshold at `LevelWarning`,
`Warn` is suppressed and `Warning` is not. -/
theorem Warn_differs_from_Warning :
    (NewLogger.Warn sampleSprintf sampleTime "low disk" []).map
        (fun l => l.calls)
      = some [SinkCall.WriteMsg sampleTime "[Info] low disk" 6] ∧
    (NewLogger.Warning sampleSprintf sampleTime "low disk" []).map
        (fun l => l.calls)
      = some [SinkCall.WriteMsg sampleTime "[Warning] low disk" 4] ∧
    ((NewLogger.setLevel LevelWarning).Warn sampleSprintf
        sampleTime "low disk" []).map (fun l => l.calls) = some [] ∧
    ((NewLogger.setLevel LevelWarning).Warning sampleSprintf
        sampleTime "low disk" []).map (fun l => l.calls)
      = some [SinkCall.WriteMsg sampleTime "[Warning] low disk" 4] := by
  refine ⟨?_, ?_, ?_, ?_⟩ <;> decide

/-! ## Helper lemmas on the dispatcher -/

theorem drain_eq (q : List logMsg) (calls : List SinkCall) :
    drain q calls = calls ++ q.map toCall := by
  induction q generalizing calls with
  | nil => simp [drain]
  | cons lm rest ih => simp [drain, ih, toCall]

/-- In asynchronous mode `writeMsg` only touches the queue. -/
theorem writeMsg_async {α : Type} (sprintf : String → List α → String) (l l' : Log)
    (now : Time) (level : Int) (format : String) (v : List α)
    (hmode : l.synchronous = true)
    (h : l.writeMsg sprintf now level format v = some l') :
    l'.calls = l.calls ∧ l'.running = l.running ∧ l'.wg = l.wg ∧
    l'.signalChan = l.signalChan ∧ l'.synchronous = true ∧ l'.level = l.level ∧
    ∃ pre, levelPrefixAt level = some pre ∧
      l'.queue = l.queue ++ [{ level := level, msg := pre ++ rendered sprintf format v,
                               when := now }] := by
  unfold Log.writeMsg at h
  cases hp : levelPrefixAt level with
  | none => simp [hp] at h
  | some pre =>
    simp only [hp, hmode, if_true] at h
    cases hc : l.msgChan with
    | none => simp [hc] at h
    | some c =>
      simp only [hc] at h
      cases hs : c.send { level := level, msg := pre ++ (if v.length > 0 then sprintf format v else format), when := now } with
      | none => simp [hs] at h
      | some c' =>
        simp only [hs, Option.some.injEq] at h
        subst h
        refine ⟨rfl, rfl, rfl, rfl, rfl, rfl, pre, rfl, ?_⟩
        unfold Chan.send at hs
        split at hs
        · simp at hs
        · split at hs
          · simp only [Option.some.injEq] at hs
            subst hs
            simp [Log.queue, hc, rendered]
          · simp at hs
/-- In asynchronous mode a level-named method only appends its record to the queue (and
appends nothing when it is suppressed). -/
theorem call_async {α : Type} (sprintf : String → List α → String) (l l' : Log)
    (op : LevelOp) (now : Time) (format : String) (v : List α)
    (hmode : l.synchronous = true)
    (h : l.call sprintf op now format v = some l') :
    l'.calls = l.calls ∧ l'.running = l.running ∧ l'.wg = l.wg ∧
    l'.signalChan = l.signalChan ∧ l'.synchronous = true ∧ l'.level = l.level ∧
    l'.queue = l.queue ++ Event.enqueued sprintf l.level (Event.submit op now format v) := by
  cases op <;>
    simp only [Log.call, Log.Emergency, Log.Alert, Log.Critical, Log.Error, Log.Warning,
      Log.Notice, Log.Informational, Log.Debug, Log.Warn, Log.Info] at h <;>
    simp only [Event.enqueued, LevelOp.usedLevel] <;>
    split at h
  all_goals first
    | (rename_i hlt
       simp only [Option.some.injEq] at h
       subst h
       simp [Log.queue, not_le.mpr (gt_iff_lt.mp hlt), hmode])
    | (rename_i hlt
       obtain ⟨h1, h2, h3, h4, h5, h6, pre, hpre, h7⟩ :=
         writeMsg_async sprintf l l' now _ format v hmode h
       have hle := not_lt.mp hlt
       refine ⟨h1, h2, h3, h4, h5, h6, ?_⟩
       rw [h7, if_pos hle]
       simp only [levelPrefixAt, levelPrefix, LevelEmergency, LevelAlert, LevelCritical,
         LevelError, LevelWarning, LevelNotice, LevelInfo, LevelDebug] at hpre
       simp at hpre
       subst hpre
       simp [levelPrefix, LevelEmergency, LevelAlert, LevelCritical,
         LevelError, LevelWarning, LevelNotice, LevelInfo, LevelDebug])
theorem run_append {α : Type} (sprintf : String → List α → String) (l : Log)
    (es fs : List (Event α)) :
    l.run sprintf (es ++ fs) = (l.run sprintf es).bind (fun m => m.run sprintf fs) := by
  induction es generalizing l with
  | nil => simp [Log.run]
  | cons e es ih =>
    simp only [List.cons_append, Log.run]
    cases l.step sprintf e with
    | none => simp
    | some m => simpa using ih m

theorem startLogger_msg_spec (l l' : Log) (h : l.startLogger_msg = some l') :
    l.running = true ∧ l'.running = true ∧ l'.wg = l.wg ∧ l'.signalChan = l.signalChan ∧
    l'.synchronous = l.synchronous ∧ l'.level = l.level ∧
    ∃ lm, l.queue = lm :: l'.queue ∧ l'.calls = l.calls ++ [toCall lm] := by
  unfold Log.startLogger_msg at h
  split at h
  · rename_i hr
    split at h
    · simp at h
    · rename_i c hc
      split at h
      · simp at h
      · rename_i lm rest hb
        simp only [Option.some.injEq] at h
        subst h
        exact ⟨hr, hr, rfl, rfl, rfl, rfl, lm, by simp [Log.queue, hc, hb], rfl⟩
  · simp at h

theorem flush_async (l : Log) (hmode : l.synchronous = true) :
    l.flush.calls = l.calls ++ l.queue.map toCall ++ [SinkCall.Flush] ∧ l.flush.queue = [] ∧
    l.flush.running = l.running ∧ l.flush.wg = l.wg ∧ l.flush.signalChan = l.signalChan ∧
    l.flush.synchronous = true ∧ l.flush.level = l.level := by
  unfold Log.flush
  cases hc : l.msgChan with
  | none => simp [hmode, hc, Log.queue]
  | some c => simp [hmode, hc, Log.queue, drain_eq]

theorem startLogger_signal_spec (l l' : Log) (hmode : l.synchronous = true)
    (h : l.startLogger_signal = some l') :
    l.running = true ∧ 1 ≤ l.wg ∧ l'.running = false ∧ l'.wg = l.wg - 1 ∧
    l'.synchronous = true ∧ l'.level = l.level ∧ l'.queue = [] ∧
    ∃ sg rest, l.signalChan.buf = sg :: rest ∧ l'.signalChan.buf = rest ∧
      l'.calls = l.calls ++ l.queue.map toCall ++ [SinkCall.Flush] ++
        (if sg = "close" then [SinkCall.Destroy] else []) := by
  unfold Log.startLogger_signal at h
  split at h
  · rename_i hr
    split at h
    · simp at h
    · rename_i sg rest hb
      have hf := flush_async { l with signalChan := { l.signalChan with buf := rest } } hmode
      obtain ⟨f1, f2, f3, f4, f5, f6, f7⟩ := hf
      by_cases hsg : sg = "close"
      · simp only [hsg, if_true] at h
        split at h
        · simp at h
        · rename_i hwg
          simp only [Option.some.injEq] at h
          subst h
          simp only [f4] at hwg
          refine ⟨hr, by omega, rfl, by simp [f4], by simpa using f6, by simpa using f7,
            by simpa [Log.queue] using f2, "close", rest, by simp [hb, hsg], by simp [f5], ?_⟩
          simp [f1, Log.queue]
      · simp only [hsg, if_false] at h
        split at h
        · simp at h
        · rename_i hwg
          simp only [Option.some.injEq] at h
          subst h
          simp only [f4] at hwg
          refine ⟨hr, by omega, rfl, by simp [f4], by simpa using f6, by simpa using f7,
            by simpa [Log.queue] using f2, sg, rest, hb, by simp [f5], ?_⟩
          simp [f1, Log.queue, hsg]
  · simp at h
theorem Close_send_async (l l' : Log) (hmode : l.synchronous = true)
    (h : l.Close_send = some l') :
    l'.calls = l.calls ∧ l'.running = l.running ∧ l'.wg = l.wg ∧ l'.synchronous = true ∧
    l'.level = l.level ∧ l'.queue = l.queue ∧
    l'.signalChan.buf = l.signalChan.buf ++ ["close"] := by
  unfold Log.Close_send at h
  simp only [hmode, if_true] at h
  split at h
  · simp at h
  · rename_i sc hs
    simp only [Option.some.injEq] at h
    subst h
    refine ⟨rfl, rfl, rfl, rfl, rfl, rfl, ?_⟩
    unfold Chan.send at hs
    split at hs
    · simp at hs
    · split at hs
      · simp only [Option.some.injEq] at hs
        subst hs
        rfl
      · simp at hs

theorem Close_wait_spec (l l' : Log) (h : l.Close_wait = some l') :
    l.wg = 0 ∧ l'.calls = l.calls ∧ l'.running = l.running ∧ l'.wg = l.wg ∧
    l'.synchronous = l.synchronous ∧ l'.level = l.level ∧ l'.queue = l.queue ∧
    l'.signalChan.buf = l.signalChan.buf := by
  unfold Log.Close_wait at h
  split at h
  · rename_i hc
    split at h
    · simp at h
    · rename_i c hm
      split at h
      · rename_i c' sc h1 h2
        simp only [Option.some.injEq] at h
        subst h
        unfold Chan.close at h1 h2
        split at h1
        · simp at h1
        · split at h2
          · simp at h2
          · simp only [Option.some.injEq] at h1 h2
            subst h1 h2
            exact ⟨hc.2, rfl, rfl, rfl, rfl, rfl, by simp [Log.queue, hm], rfl⟩
      · simp at h
  · simp at h

theorem Async_async (l l' : Log) (n : Int) (hmode : l.synchronous = true)
    (h : l.Async n = some l') : l' = l := by
  unfold Log.Async at h
  simp only [hmode, if_true, Option.some.injEq] at h
  exact h.symm

/-- Producer submits and single-record consumer steps keep written-then-queued records in
submission order. -/
theorem traffic_run {α : Type} (sprintf : String → List α → String)
    (pre : List (Event α)) (l l1 : Log) (hmode : l.synchronous = true)
    (hpre : ∀ e ∈ pre, e.isTraffic = true) (h : l.run sprintf pre = some l1) :
    l1.synchronous = true ∧ l1.running = l.running ∧ l1.wg = l.wg ∧
    l1.signalChan = l.signalChan ∧ l1.level = l.level ∧
    l1.calls ++ l1.queue.map toCall =
      l.calls ++ (l.queue ++ enqueuedBy sprintf l.level pre).map toCall := by
  induction pre generalizing l with
  | nil =>
    simp only [Log.run, Option.some.injEq] at h
    subst h
    simp [enqueuedBy, hmode]
  | cons e es ih =>
    simp only [Log.run] at h
    cases hs : l.step sprintf e with
    | none => simp [hs] at h
    | some m =>
      simp only [hs] at h
      have he := hpre e (List.mem_cons_self _ _)
      have hes : ∀ e ∈ es, e.isTraffic = true := fun x hx => hpre x (List.mem_cons_of_mem _ hx)
      cases e with
      | submit op now format v =>
        obtain ⟨a1, a2, a3, a4, a5, a6, a7⟩ := call_async sprintf l m op now format v hmode hs
        obtain ⟨b1, b2, b3, b4, b5, b6⟩ := ih m a5 hes h
        refine ⟨b1, b2.trans a2, b3.trans a3, b4.trans a4, b5.trans a6, ?_⟩
        rw [b6, a1, a7, a6]
        simp [enqueuedBy]
      | consumerMsg =>
        obtain ⟨a0, a1, a2, a3, a4, a5, lm, a6, a7⟩ := startLogger_msg_spec l m hs
        obtain ⟨b1, b2, b3, b4, b5, b6⟩ := ih m (a4.trans hmode) hes h
        refine ⟨b1, b2.trans (a1.trans a0.symm), b3.trans a2, b4.trans a3, b5.trans a5, ?_⟩
        rw [b6, a7, a6, a5]
        simp [enqueuedBy, Event.enqueued]
      | consumerSignal => simp [Event.isTraffic] at he
      | closeSend => simp [Event.isTraffic] at he
      | closeWait => simp [Event.isTraffic] at he
      | flushSend => simp [Event.isTraffic] at he
      | flushWait => simp [Event.isTraffic] at he
      | async n => simp [Event.isTraffic] at he
theorem closing_step {α : Type} (sprintf : String → List α → String) (P : List SinkCall)
    (l l' : Log) (e : Event α) (hc : Closing P l) (he : e.isFlush = false)
    (h : l.step sprintf e = some l') : Closing P l' := by
  obtain ⟨hmode, hsig, hcase⟩ := hc
  cases e with
  | submit op now format v =>
    obtain ⟨a1, a2, a3, a4, a5, a6, a7⟩ := call_async sprintf l l' op now format v hmode h
    refine ⟨a5, by rw [a4]; exact hsig, ?_⟩
    rcases hcase with ⟨hr, hwg, t, ht⟩ | ⟨hr, t, ht⟩
    · refine Or.inl ⟨a2.trans hr, by rw [a3]; exact hwg, t ++ Event.enqueued sprintf l.level
        (Event.submit op now format v), ?_⟩
      rw [a1, a7, List.map_append, ← List.append_assoc, ht]
      simp
    · exact Or.inr ⟨a2.trans hr, t, by rw [a1]; exact ht⟩
  | consumerMsg =>
    obtain ⟨a0, a1, a2, a3, a4, a5, lm, a6, a7⟩ := startLogger_msg_spec l l' h
    refine ⟨a4.trans hmode, by rw [a3]; exact hsig, ?_⟩
    rcases hcase with ⟨hr, hwg, t, ht⟩ | ⟨hr, t, ht⟩
    · refine Or.inl ⟨a1, by rw [a2]; exact hwg, t, ?_⟩
      rw [← ht, a7, a6]
      simp
    · rw [a0] at hr
      cases hr
  | consumerSignal =>
    obtain ⟨a0, a1, a2, a3, a4, a5, a6, sg, rest, a7, a8, a9⟩ :=
      startLogger_signal_spec l l' hmode h
    have hsg : sg = "close" := hsig sg (by rw [a7]; exact List.mem_cons_self _ _)
    refine ⟨a4, ?_, ?_⟩
    · intro s hs
      exact hsig s (by rw [a7]; exact List.mem_cons_of_mem _ (by rw [a8] at hs; exact hs))
    · rcases hcase with ⟨hr, hwg, t, ht⟩ | ⟨hr, t, ht⟩
      · refine Or.inr ⟨a2, t, ?_⟩
        rw [a9, ht, if_pos hsg]
        simp
      · rw [a0] at hr
        cases hr
  | closeSend =>
    obtain ⟨a1, a2, a3, a4, a5, a6, a7⟩ := Close_send_async l l' hmode h
    refine ⟨a4, ?_, ?_⟩
    · intro s hs
      rw [a7, List.mem_append] at hs
      rcases hs with hs | hs
      · exact hsig s hs
      · simpa using hs
    · rw [a1, a2, a3, a6]
      exact hcase
  | closeWait =>
    obtain ⟨a0, a1, a2, a3, a4, a5, a6, a7⟩ := Close_wait_spec l l' h
    refine ⟨a4.trans hmode, by rw [a7]; exact hsig, ?_⟩
    rw [a1, a2, a3, a6]
    exact hcase
  | flushSend => simp [Event.isFlush] at he
  | flushWait => simp [Event.isFlush] at he
  | async n =>
    have := Async_async l l' n hmode h
    subst this
    exact ⟨hmode, hsig, hcase⟩

theorem closing_run {α : Type} (sprintf : String → List α → String) (P : List SinkCall)
    (es : List (Event α)) (l l' : Log) (hc : Closing P l)
    (hes : ∀ e ∈ es, e.isFlush = false) (h : l.run sprintf es = some l') : Closing P l' := by
  induction es generalizing l with
  | nil =>
    simp only [Log.run, Option.some.injEq] at h
    subst h
    exact hc
  | cons e es ih =>
    simp only [Log.run] at h
    cases hs : l.step sprintf e with
    | none => simp [hs] at h
    | some m =>
      simp only [hs] at h
      exact ih m (closing_step sprintf P l m e hc (hes e (List.mem_cons_self _ _)) hs)
        (fun x hx => hes x (List.mem_cons_of_mem _ hx)) h
theorem flush_wg (l : Log) : l.flush.wg = l.wg := by
  unfold Log.flush
  cases l.synchronous <;> cases l.msgChan <;> rfl

/-- The consumer's handling of "close", and `Close` in runs without `Flush`:
in asynchronous mode the consumer, on receiving "close" with queue content `c.buf`,
hands every queued record to the sink in queue order, then calls `Flush`, then `Destroy`,
and returns; and whenever a `Close` call returns, every record that was queued or submitted
before the call has been handed to the sink in submission order, followed (after the
records `t` submitted while `Close` was waiting) by `Flush` and `Destroy`. -/
theorem close_drains_queue {α : Type} (sprintf : String → List α → String) :
    (∀ (m : Log) (c : Chan logMsg), m.running = true → m.synchronous = true →
       m.msgChan = some c → m.signalChan.buf = ["close"] → 1 ≤ m.wg →
       ∃ m', m.startLogger_signal = some m' ∧
         m'.calls = m.calls ++ c.buf.map toCall ++ [SinkCall.Flush, SinkCall.Destroy] ∧
         m'.running = false ∧ m'.queue = [] ∧ m'.signalChan.buf = [] ∧ m'.wg = m.wg - 1) ∧
    (∀ (l l' : Log) (pre post : List (Event α)),
       l.synchronous = true → l.running = true → 1 ≤ l.wg → l.signalChan.buf = [] →
       (∀ e ∈ pre, e.isTraffic = true) → (∀ e ∈ post, e.isFlush = false) →
       l.run sprintf (pre ++ Event.closeSend :: (post ++ [Event.closeWait])) = some l' →
       ∃ t : List logMsg,
         l'.calls = l.calls ++ (l.queue ++ enqueuedBy sprintf l.level pre ++ t).map toCall
           ++ [SinkCall.Flush, SinkCall.Destroy]) := by
  constructor
  · intro m c hr hmode hc hsig hwg
    have hex : ∃ m', m.startLogger_signal = some m' := by
      unfold Log.startLogger_signal
      simp only [hr, if_true, hsig]
      rw [if_neg]
      · exact ⟨_, rfl⟩
      · rw [flush_wg]
        exact not_lt.mpr hwg
    obtain ⟨m', hm'⟩ := hex
    obtain ⟨-, -, a2, a3, -, -, a6, sg, rest, a7, a8, a9⟩ :=
      startLogger_signal_spec m m' hmode hm'
    rw [hsig] at a7
    simp only [List.cons.injEq] at a7
    obtain ⟨h1, h2⟩ := a7
    subst h1 h2
    refine ⟨m', hm', ?_, a2, a6, a8, a3⟩
    rw [a9]
    simp [Log.queue, hc]
  · intro l l' pre post hmode hr hwg hsig hpre hpost hrun
    rw [run_append] at hrun
    cases h1 : l.run sprintf pre with
    | none => simp [h1] at hrun
    | some l1 =>
      simp only [h1, Option.some_bind, Log.run] at hrun
      cases h2 : l1.step sprintf (Event.closeSend : Event α) with
      | none => simp [h2] at hrun
      | some l2 =>
        simp only [h2] at hrun
        rw [run_append] at hrun
        cases h3 : l2.run sprintf post with
        | none => simp [h3] at hrun
        | some l3 =>
          simp only [h3, Option.some_bind, Log.run] at hrun
          cases h4 : l3.step sprintf (Event.closeWait : Event α) with
          | none => simp [h4] at hrun
          | some l4 =>
            simp only [h4, Option.some.injEq] at hrun
            subst hrun
            obtain ⟨a1, a2, a3, a4, a5, a6⟩ := traffic_run sprintf pre l l1 hmode hpre h1
            obtain ⟨b1, b2, b3, b4, b5, b6, b7⟩ := Close_send_async l1 l2 a1 h2
            have hcl : Closing (l.calls ++ (l.queue ++ enqueuedBy sprintf l.level pre).map toCall)
                l2 := by
              refine ⟨b4, ?_, Or.inl ⟨b2.trans (a2.trans hr), by rw [b3, a3]; exact hwg, [], ?_⟩⟩
              · intro s hs
                rw [b7, a4, hsig] at hs
                simpa using hs
              · rw [b1, b6, a6]
                simp
            obtain ⟨-, -, hcase⟩ := closing_run sprintf _ post l2 l3 hcl hpost h3
            obtain ⟨c0, c1, -⟩ := Close_wait_spec l3 l4 h4
            rcases hcase with ⟨-, hw, -⟩ | ⟨-, t, ht⟩
            · omega
            · exact ⟨t, by rw [c1, ht]; simp⟩
/-- An instance of `close_drains_queue`: the consumer receiving "close" with two queued
records, and a run
`Info("a"); Error("b"); consumer takes one record; Close()`. -/
theorem close_drains_queue_witness :
    (∃ m', closingLogger.startLogger_signal = some m' ∧
       m'.calls = [SinkCall.WriteMsg sampleTime "[Info] a" 6,
                   SinkCall.WriteMsg sampleTime "[Error] b" 3,
                   SinkCall.Flush, SinkCall.Destroy] ∧
       m'.running = false ∧ m'.queue = [] ∧ m'.signalChan.buf = [] ∧ m'.wg = 0) ∧
    (NewLogger.Async 2 = some asyncLogger ∧
     ∃ l', asyncLogger.run sampleSprintf
         ([Event.submit LevelOp.Info sampleTime "a" [],
           Event.submit LevelOp.Error sampleTime "b" [],
           Event.consumerMsg] ++
          Event.closeSend :: ([Event.consumerSignal] ++ [Event.closeWait])) = some l' ∧
       ∃ t : List logMsg,
         l'.calls = [SinkCall.WriteMsg sampleTime "[Info] a" 6,
                     SinkCall.WriteMsg sampleTime "[Error] b" 3] ++ t.map toCall
           ++ [SinkCall.Flush, SinkCall.Destroy]) := by
  refine ⟨?_, rfl, ?_⟩
  · simpa [closingLogger, asyncLogger, NewLogger, toCall] using
      (close_drains_queue sampleSprintf).1 closingLogger
        { cap := 2, closed := false,
          buf := [{ level := 6, msg := "[Info] a", when := sampleTime },
                  { level := 3, msg := "[Error] b", when := sampleTime }] }
        rfl rfl rfl rfl (by decide)
  · have hrun : ∃ l', asyncLogger.run sampleSprintf
         ([Event.submit LevelOp.Info sampleTime "a" [],
           Event.submit LevelOp.Error sampleTime "b" [],
           Event.consumerMsg] ++
          Event.closeSend :: ([Event.consumerSignal] ++ [Event.closeWait])) = some l' :=
      ⟨_, rfl⟩
    obtain ⟨l', hl'⟩ := hrun
    obtain ⟨t, ht⟩ := (close_drains_queue sampleSprintf).2 asyncLogger l'
      [Event.submit LevelOp.Info sampleTime "a" [],
       Event.submit LevelOp.Error sampleTime "b" [], Event.consumerMsg]
      [Event.consumerSignal] rfl rfl (by decide) rfl (by simp [Event.isTraffic])
      (by simp [Event.isFlush]) hl'
    refine ⟨l', hl', t, ?_⟩
    rw [ht]
    simp [asyncLogger, NewLogger, Log.queue, enqueuedBy, Event.enqueued, LevelOp.usedLevel,
      LevelInfo, LevelError, LevelDebug, levelPrefix, rendered, sampleSprintf, toCall]

/-- Once the consumer goroutine of an asynchronous dispatcher has returned, no step of any
goroutine makes a call to the sink or restarts the consumer. -/
theorem dead_consumer_run {α : Type} (sprintf : String → List α → String)
    (es : List (Event α)) (l l' : Log) (hmode : l.synchronous = true)
    (hdead : l.running = false) (h : l.run sprintf es = some l') :
    l'.calls = l.calls ∧ l'.running = false ∧ l'.synchronous = true := by
  induction es generalizing l with
  | nil =>
    simp only [Log.run, Option.some.injEq] at h
    subst h
    exact ⟨rfl, hdead, hmode⟩
  | cons e es ih =>
    simp only [Log.run] at h
    cases hs : l.step sprintf e with
    | none => simp [hs] at h
    | some m =>
      simp only [hs] at h
      have key : m.calls = l.calls ∧ m.running = false ∧ m.synchronous = true := by
        cases e with
        | submit op now format v =>
          obtain ⟨a1, a2, -, -, a5, -⟩ := call_async sprintf l m op now format v hmode hs
          exact ⟨a1, a2.trans hdead, a5⟩
        | consumerMsg =>
          have := (startLogger_msg_spec l m hs).1
          rw [hdead] at this
          cases this
        | consumerSignal =>
          have := (startLogger_signal_spec l m hmode hs).1
          rw [hdead] at this
          cases this
        | closeSend =>
          obtain ⟨a1, a2, -, a4, -⟩ := Close_send_async l m hmode hs
          exact ⟨a1, a2.trans hdead, a4⟩
        | closeWait =>
          obtain ⟨-, a1, a2, -, a4, -⟩ := Close_wait_spec l m hs
          exact ⟨a1, a2.trans hdead, a4.trans hmode⟩
        | flushSend =>
          simp only [Log.step, Log.Flush_send, hmode, if_true] at hs
          split at hs
          · simp at hs
          · simp only [Option.some.injEq] at hs
            subst hs
            exact ⟨rfl, hdead, rfl⟩
        | flushWait =>
          simp only [Log.step, Log.Flush_wait] at hs
          split at hs
          · simp only [Option.some.injEq] at hs
            subst hs
            exact ⟨rfl, hdead, hmode⟩
          · simp at hs
        | async n =>
          have := Async_async l m n hmode hs
          subst this
          exact ⟨rfl, hdead, hmode⟩
      obtain ⟨k1, k2, k3⟩ := key
      obtain ⟨b1, b2, b3⟩ := ih m k3 k2 h
      exact ⟨b1.trans k1, b2, b3⟩

/-- C3 at a failing input: on an asynchronous dispatcher, `Flush()` followed by
`Info("after flush")` leaves the consumer goroutine returned (not running) with the record
in the queue, and in every continuation of the run the sink has received nothing but the
one `Flush` call: the record is never written. -/
theorem Flush_stops_consumer :
    asyncLogger.run sampleSprintf
        [Event.flushSend, Event.consumerSignal, Event.flushWait,
         Event.submit LevelOp.Info sampleTime "after flush" []] = some flushedLogger ∧
    flushedLogger.running = false ∧
    flushedLogger.queue = [{ level := 6, msg := "[Info] after flush", when := sampleTime }] ∧
    ∀ es : List (Event String),
      ((flushedLogger.run sampleSprintf es).map (fun l => l.calls)).getD [SinkCall.Flush]
        = [SinkCall.Flush] := by
  refine ⟨by decide, rfl, rfl, ?_⟩
  intro es
  cases h : flushedLogger.run sampleSprintf es with
  | none => rfl
  | some l' =>
    have := (dead_consumer_run sampleSprintf es flushedLogger l' rfl rfl h).1
    simpa [flushedLogger] using this

/-- C5: when rotation is triggered, the active file exists and a file with the rotated name
exists, `doRotate` returns the collision error and changes neither the sink (handle,
`sizeNow`, `dailyOpenTime`) nor the system (no close, rename, chmod or open; all files as
they were). -/
theorem doRotate_collision (f : file) (os : OS) (t : Time) (active rotated : FileInfo)
    (hrot : f.Rotate = true)
    (htrig : (f.MaxSize > 0 ∧ f.sizeNow > f.MaxSize) ∨ f.dailyOpenTime.day ≠ t.day)
    (hactive : os.Lstat f.Filename = some active)
    (hrotated : os.Lstat (f.newFileName t) = some rotated) :
    f.doRotate os t = (f, os, some (RotateError.collision (f.newFileName t))) := by
  unfold file.doRotate
  simp only [hrot, Bool.not_true, Bool.false_eq_true, if_false, htrig, if_true, hactive,
    hrotated]
/-- Witness for C5: the day has changed for a default sink and the rotated name is taken. -/
theorem doRotate_collision_witness :
    defaultSink.Rotate = true ∧
    ((defaultSink.MaxSize > 0 ∧ defaultSink.sizeNow > defaultSink.MaxSize) ∨
      defaultSink.dailyOpenTime.day ≠ midnight.day) ∧
    collisionOS.Lstat defaultSink.Filename
      = some { kind := FileKind.regular, size := 0, modTime := 1709629625000000000,
               mode := 432 } ∧
    collisionOS.Lstat (defaultSink.newFileName midnight)
      = some { kind := FileKind.regular, size := 12, modTime := 1709629625000000000,
               mode := 288 } ∧
    defaultSink.doRotate collisionOS midnight
      = (defaultSink, collisionOS,
         some (RotateError.collision "/var/log/app2024-03-06_00000.log")) :=
  ⟨by decide, Or.inr (by decide), by decide, by decide,
    doRotate_collision defaultSink collisionOS midnight
      { kind := FileKind.regular, size := 0, modTime := 1709629625000000000, mode := 432 }
      { kind := FileKind.regular, size := 12, modTime := 1709629625000000000, mode := 288 }
      (by decide) (Or.inr (by decide)) (by decide) (by decide)⟩

/-- C4 at a failing input: a sink configured with `daily` false and `maxsize` 0 whose file
was opened on March 5 is checked at midnight of March 6: `doRotate` closes the handle,
renames the active file and opens a fresh one, although daily rotation is disabled and no
size limit is set. -/
theorem doRotate_ignores_Daily :
    noDailySink.Daily = false ∧ noDailySink.MaxSize = 0 ∧ noDailySink.Rotate = true ∧
    noDailySink.dailyOpenTime = sampleTime ∧
    (noDailySink.doRotate noDailyOS midnight).2.1.calls
      = noDailyOS.calls ++
        [Effect.close (some 3),
         Effect.rename "/var/log/app.log" "/var/log/app2024-03-06_00000.log",
         Effect.chmod "/var/log/app2024-03-06_00000.log" 288,
         Effect.mkdirAllDirOf "/var/log/app.log" 432,
         Effect.openFile "/var/log/app.log" 432,
         Effect.close (some 3),
         Effect.goRemoveOldFile] ∧
    (noDailySink.doRotate noDailyOS midnight).1.writer = some 4 ∧
    (noDailySink.doRotate noDailyOS midnight).2.2 = none := by
  refine ⟨by decide, by decide, by decide, by decide, by decide, by decide, by decide⟩

/-- C6 at a failing input: a rotation at 09:07:05 on 2024-03-05 renames the active file to
a name whose time part is `90705` (five digits, the hour not padded), not `090705`. -/
theorem newFileName_hour_unpadded :
    smallSink.newFileName sampleTime = "/var/log/app2024-03-05_90705.log" ∧
    smallSink.newFileName sampleTime ≠
      smallSink.fileNameOnly ++ sampleTime.formatDate ++ "_" ++ fmt02d sampleTime.hour ++
        fmt02d sampleTime.minute ++ fmt02d sampleTime.second ++ smallSink.suffix ∧
    smallSink.fileNameOnly ++ sampleTime.formatDate ++ "_" ++ fmt02d sampleTime.hour ++
        fmt02d sampleTime.minute ++ fmt02d sampleTime.second ++ smallSink.suffix
      = "/var/log/app2024-03-05_090705.log" ∧
    (smallSink.doRotate smallOS sampleTime).2.1.calls
      = smallOS.calls ++
        [Effect.close (some 3),
         Effect.rename "/var/log/app.log" "/var/log/app2024-03-05_90705.log",
         Effect.chmod "/var/log/app2024-03-05_90705.log" 288,
         Effect.mkdirAllDirOf "/var/log/app.log" 432,
         Effect.openFile "/var/log/app.log" 432,
         Effect.close (some 3),
         Effect.goRemoveOldFile] := by
  refine ⟨by decide, by decide, by decide, by decide⟩

/-- C7 at a failing input: `Info("x")` on a dispatcher in direct mode hands the text
"[Info] x" with severity 6 to its sink; the rotating-file sink writes
"2024-03-05 09:07:05 [Info] x\n", but the console sink with colour disabled writes
"2024-03-05 09:07:05[Info] x\n", without the space after the timestamp. -/
theorem console_line_has_no_space :
    (NewLogger.Info sampleSprintf sampleTime "x" []).map (fun l => l.calls)
      = some [SinkCall.WriteMsg sampleTime "[Info] x" 6] ∧
    (consoleWriter.WriteMsg { Level := LevelDebug, Colorful := false, out := [] }
        sampleTime "[Info] x" 6).map (fun c => c.out)
      = some ["2024-03-05 09:07:05[Info] x\n"] ∧
    ((configDefault.Init bootOS).1.WriteMsg (configDefault.Init bootOS).2.1 sampleTime
        "[Info] x" 6 WriteResult.ok).2.calls
      = (configDefault.Init bootOS).2.1.calls ++
        [Effect.write (some 3) "2024-03-05 09:07:05 [Info] x\n"] := by
  refine ⟨by decide, by decide, by decide⟩

theorem wrapInt64_of_range (x : Int) (hlo : -9223372036854775808 ≤ x)
    (hhi : x < 9223372036854775808) : wrapInt64 x = x := by
  unfold wrapInt64
  rw [Int.emod_eq_of_lt (by omega) (by omega)]
  omega

/-- C9 as stated fails: a write that returns an error (here after 0 bytes) for a record
that passes the sink's level leaves `sizeNow` at 0, although the formatted line has 29
bytes. -/
theorem WriteMsg_failed_write_keeps_size :
    ¬ (defaultSink.Level < 6) ∧
    len ("2024-03-05 09:07:05" ++ " " ++ "[Info] x" ++ "\n") = 29 ∧
    defaultSink.sizeNow = 0 ∧
    (defaultSink.WriteMsg (configDefault.Init bootOS).2.1 sampleTime "[Info] x" 6
      (WriteResult.err 0)).1.sizeNow = 0 ∧
    (defaultSink.WriteMsg (configDefault.Init bootOS).2.1 sampleTime "[Info] x" 6
      (WriteResult.err 0)).2.calls
      = (configDefault.Init bootOS).2.1.calls ++
        [Effect.write (some 3) "2024-03-05 09:07:05 [Info] x\n"] := by
  refine ⟨by decide, by decide, by decide, by decide, by decide⟩

/-- C9 amended: a call of `WriteMsg` whose severity passes the sink's level makes one
`Write` of the formatted line; when that write returns no error `sizeNow` grows by the byte
length of the line (in 64-bit arithmetic, hence exactly when the sum fits), and when it
returns an error (always the case for a result `err n`) `sizeNow` is unchanged. A call
whose severity does not pass the level leaves the sink, the files and the call history of
the system unchanged. -/
theorem WriteMsg_size (f : file) (os : OS) (when : Time) (msg : String) (level : Int)
    (r : WriteResult) :
    (¬ f.Level < level →
      (f.WriteMsg os when msg level r).2.calls
        = os.calls ++ [Effect.write f.writer (when.formatDateTime ++ " " ++ msg ++ "\n")] ∧
      ((os.Write f.writer (when.formatDateTime ++ " " ++ msg ++ "\n") r).2 = true →
        (f.WriteMsg os when msg level r).1.sizeNow
          = wrapInt64 (f.sizeNow + len (when.formatDateTime ++ " " ++ msg ++ "\n")) ∧
        (-9223372036854775808 ≤ f.sizeNow + len (when.formatDateTime ++ " " ++ msg ++ "\n") →
         f.sizeNow + len (when.formatDateTime ++ " " ++ msg ++ "\n") < 9223372036854775808 →
          (f.WriteMsg os when msg level r).1.sizeNow
            = f.sizeNow + len (when.formatDateTime ++ " " ++ msg ++ "\n"))) ∧
      ((os.Write f.writer (when.formatDateTime ++ " " ++ msg ++ "\n") r).2 = false →
        (f.WriteMsg os when msg level r).1.sizeNow = f.sizeNow) ∧
      (∀ n, r = WriteResult.err n →
        (os.Write f.writer (when.formatDateTime ++ " " ++ msg ++ "\n") r).2 = false)) ∧
    (f.Level < level →
      (f.WriteMsg os when msg level r).1 = f ∧
      (f.WriteMsg os when msg level r).2.calls = os.calls ∧
      (f.WriteMsg os when msg level r).2.files = os.files) := by
  have hcalls : ∀ (fd : Option Nat) (data : String),
      (os.Write fd data r).1.calls = os.calls ++ [Effect.write fd data] := by
    intro fd data
    unfold OS.Write
    cases fd with
    | none => rfl
    | some n =>
      simp only [OS.log]
      split
      · rfl
      · split <;> rfl
  refine ⟨fun hpass => ?_, fun hdrop => ?_⟩
  · have hw := hcalls f.writer (when.formatDateTime ++ " " ++ msg ++ "\n")
    unfold file.WriteMsg
    simp only [hpass, if_false]
    cases hres : os.Write f.writer (when.formatDateTime ++ " " ++ msg ++ "\n") r with
    | mk os' ok =>
      rw [hres] at hw
      cases ok with
      | true =>
        refine ⟨hw, fun _ => ⟨rfl, fun hlo hhi => ?_⟩, fun h => Bool.noConfusion h, ?_⟩
        · exact wrapInt64_of_range _ hlo hhi
        · intro n hn
          subst hn
          exfalso
          unfold OS.Write at hres
          cases hfd : f.writer with
          | none => simp [hfd] at hres
          | some k =>
            simp only [hfd] at hres
            split at hres
            · simp at hres
            · split at hres <;> simp at hres
      | false =>
        exact ⟨hw, fun h => Bool.noConfusion h, fun _ => rfl, fun _ _ => rfl⟩
  · unfold file.WriteMsg
    rw [if_pos hdrop]
    exact ⟨rfl, rfl, rfl⟩

/-- Witness for C9 amended: a successful write of "[Info] x" through the default sink. -/
theorem WriteMsg_size_witness :
    ¬ defaultSink.Level < 6 ∧
    ((configDefault.Init bootOS).2.1.Write defaultSink.writer
      (sampleTime.formatDateTime ++ " " ++ "[Info] x" ++ "\n") WriteResult.ok).2 = true ∧
    (defaultSink.WriteMsg (configDefault.Init bootOS).2.1 sampleTime "[Info] x" 6
      WriteResult.ok).1.sizeNow
      = defaultSink.sizeNow + len (sampleTime.formatDateTime ++ " " ++ "[Info] x" ++ "\n") :=
  ⟨by decide, by decide,
    ((((WriteMsg_size defaultSink (configDefault.Init bootOS).2.1 sampleTime "[Info] x" 6
      WriteResult.ok).1 (by decide)).2.1 (by decide)).2 (by decide) (by decide))⟩

/-- C8 as stated fails: with `maxdays` 0 the sweep that runs one second after a rotation
hands to `os.Remove` the active file `/var/log/app.log` itself (created one second
earlier), and also a symbolic link, which is not a regular file; and with `maxdays`
106752 the 64-bit duration wraps to a negative value, so the same files are removed
although none is older than 106752 days. -/
theorem removeOldFile_removes_active_file :
    zeroDaysSink.Filename = "/var/log/app.log" ∧ zeroDaysSink.Daily = true ∧
    zeroDaysSink.MaxDays = 0 ∧
    zeroDaysSink.removeOldFile sweepNow sweepVisits
      = ["/var/log/app-current.log", "/var/log/app.log",
         "/var/log/app2024-03-06_00000.log"] ∧
    zeroDaysSink.Filename ∈ zeroDaysSink.removeOldFile sweepNow sweepVisits ∧
    ({ path := "/var/log/app-current.log",
       info := some { kind := FileKind.symlink, size := 7,
                      modTime := 1709596800000000000, mode := 511 } } : WalkEntry)
      ∈ sweepVisits ∧
    { zeroDaysSink with MaxDays := 106752 }.removeOldFile sweepNow sweepVisits
      = ["/var/log/app-current.log", "/var/log/app.log",
         "/var/log/app2024-03-06_00000.log"] := by
  refine ⟨by decide, by decide, by decide, by decide, by decide, by decide, by decide⟩

/-- C8 amended: for `maxdays` between -106751 and 106751 (where the duration
`maxdays*24h` fits in 64 bits), the sweep hands a path to `os.Remove` exactly when `daily`
is set and the walk visits the path with file information that is not a directory, whose
modification time plus `maxdays*24h` is before now, and whose base name starts with the
base name of `fileNameOnly` and ends with `suffix`; in particular nothing is removed when
`daily` is false, and the active file is removed like any other file meeting these
conditions. -/
theorem removeOldFile_spec (f : file) (now : Int) (visited : List WalkEntry)
    (hlo : -106751 ≤ f.MaxDays) (hhi : f.MaxDays ≤ 106751) :
    (∀ p : String, p ∈ f.removeOldFile now visited ↔
      f.Daily = true ∧
      ∃ info : FileInfo, ({ path := p, info := some info } : WalkEntry) ∈ visited ∧
        info.kind ≠ FileKind.directory ∧
        info.modTime + 86400000000000 * f.MaxDays < now ∧
        HasPrefix (Base p) (Base f.fileNameOnly) = true ∧
        HasSuffix (Base p) f.suffix = true) ∧
    (f.Daily = false → f.removeOldFile now visited = []) := by
  have hwrap : wrapInt64 (86400000000000 * f.MaxDays) = 86400000000000 * f.MaxDays :=
    wrapInt64_of_range _ (by omega) (by omega)
  have hvisit : ∀ e : WalkEntry, f.removeOldFileVisit now e = true ↔
      f.Daily = true ∧ ∃ info : FileInfo, e.info = some info ∧
        info.kind ≠ FileKind.directory ∧
        info.modTime + 86400000000000 * f.MaxDays < now ∧
        HasPrefix (Base e.path) (Base f.fileNameOnly) = true ∧
        HasSuffix (Base e.path) f.suffix = true := by
    intro e
    unfold file.removeOldFileVisit
    rw [hwrap]
    cases hd : f.Daily with
    | false => simp
    | true =>
      cases hi : e.info with
      | none => simp
      | some info =>
        simp only [if_true, Option.some.injEq, exists_eq_left', true_and, FileInfo.IsDir]
        by_cases hk : info.kind = FileKind.directory
        · simp [hk]
        · by_cases ht : info.modTime + 86400000000000 * f.MaxDays < now
          · simp [hk, ht]
          · simp [hk, ht]
  constructor
  · intro p
    unfold file.removeOldFile
    simp only [List.mem_map, List.mem_filter]
    constructor
    · rintro ⟨e, ⟨hmem, hv⟩, rfl⟩
      obtain ⟨hd, info, hi, h1, h2, h3, h4⟩ := (hvisit e).mp hv
      refine ⟨hd, info, ?_, h1, h2, h3, h4⟩
      have : e = { path := e.path, info := some info } := by
        cases e
        simp_all
      rw [← this]
      exact hmem
    · rintro ⟨hd, info, hmem, h1, h2, h3, h4⟩
      exact ⟨_, ⟨hmem, (hvisit _).mpr ⟨hd, info, rfl, h1, h2, h3, h4⟩⟩, rfl⟩
  · intro hd
    unfold file.removeOldFile
    have : visited.filter (fun e => f.removeOldFileVisit now e) = [] := by
      rw [List.filter_eq_nil_iff]
      intro e _
      unfold file.removeOldFileVisit
      simp [hd]
    rw [this]
    rfl

/-- Witness for C8 amended: the sweep of `zeroDaysSink` over `sweepVisits`. -/
theorem removeOldFile_spec_witness :
    -106751 ≤ zeroDaysSink.MaxDays ∧ zeroDaysSink.MaxDays ≤ 106751 ∧
    (∀ p : String, p ∈ zeroDaysSink.removeOldFile sweepNow sweepVisits ↔
      zeroDaysSink.Daily = true ∧
      ∃ info : FileInfo, ({ path := p, info := some info } : WalkEntry) ∈ sweepVisits ∧
        info.kind ≠ FileKind.directory ∧
        info.modTime + 86400000000000 * zeroDaysSink.MaxDays < sweepNow ∧
        HasPrefix (Base p) (Base zeroDaysSink.fileNameOnly) = true ∧
        HasSuffix (Base p) zeroDaysSink.suffix = true) ∧
    (zeroDaysSink.Daily = false → zeroDaysSink.removeOldFile sweepNow sweepVisits = []) :=
  ⟨by decide, by decide,
    removeOldFile_spec zeroDaysSink sweepNow sweepVisits (by decide) (by decide)⟩

/-- C2 at a failing input: on an asynchronous dispatcher one goroutine calls `Flush()` and
the consumer serves the "flush" signal (draining the queue, calling the sink's `Flush`,
`wg.Done()` and returning from its loop); another goroutine then submits `Info("x")` and
calls `Close()`. `Close` sends "close", its `wg.Wait()` passes at once because the counter
is zero, and it closes both channels and returns. The record submitted before the `Close`
call is still in the queue, the "close" signal is never received, the sink has received
only the one `Flush` (no `WriteMsg` for the record, no `Destroy`), and this stays so in
every continuation. -/
theorem Close_after_flush_loses_record :
    asyncLogger.run sampleSprintf
        [Event.flushSend, Event.consumerSignal,
         Event.submit LevelOp.Info sampleTime "x" [],
         Event.closeSend, Event.closeWait] = some closedEarlyLogger ∧
    closedEarlyLogger.queue = [{ level := 6, msg := "[Info] x", when := sampleTime }] ∧
    closedEarlyLogger.signalChan.buf = ["close"] ∧
    closedEarlyLogger.calls = [SinkCall.Flush] ∧
    closedEarlyLogger.running = false ∧
    ∀ es : List (Event String),
      ((closedEarlyLogger.run sampleSprintf es).map (fun l => l.calls)).getD [SinkCall.Flush]
        = [SinkCall.Flush] := by
  refine ⟨by decide, rfl, rfl, rfl, rfl, ?_⟩
  intro es
  cases h : closedEarlyLogger.run sampleSprintf es with
  | none => rfl
  | some l' =>
    have := (dead_consumer_run sampleSprintf es closedEarlyLogger l' rfl rfl h).1
    simpa [closedEarlyLogger] using this

end GoLog
